import Mathlib

/-!
Verification development for the multiscreencap recording pipeline.

The definitions below are a shallow embedding of the Rust sources:

* `src/ffmpeg.rs` — `FfmpegCommandBuilder::build`, `resize_rgba_nn`,
  the encoder-fallback sequence and the frame-pump loop of
  `start_ffmpeg_for_window`;
* `src/recorder.rs` — `RecorderState`.

Machine integers are modelled as `ℕ` (for `usize`/`u64` values) and `ℤ`
(for `i32` values); `usize` saturating multiplication is modelled
explicitly by `satMul`.  Byte buffers are `List ℕ`.  OS effects (the
capture primitive, `try_wait` probes on the child process, the audio
device enumeration consulted by `get_ffmpeg_device_index`) are modelled
as explicit inputs, so that each function of the embedding is a pure
function of the code's actual information sources.
-/

namespace MSC

/-- The three encoder variants of `VideoEncoder` in `src/ffmpeg.rs`. -/
inductive VideoEncoder
  | H264VideoToolbox
  | H264VideoToolboxFallback
  | Libx264
deriving DecidableEq

/-- One argument handed to the ffmpeg `Command`.  Fixed literal arguments
are `lit`; arguments produced by the `format!` calls in
`FfmpegCommandBuilder::build` keep their numeric payloads so that the
rendered string is recoverable via `Arg.render`. -/
inductive Arg
  | lit (s : String)
  | size (w h : ℕ)
  | num (n : ℤ)
  | kbps (n : ℤ)
  | adev (i : ℕ)
  | x264ps (keyint minKeyint : ℤ)
  | outPath (p : String)
deriving DecidableEq

/-- Rendering of an `Arg` to the string actually passed to the process,
following the `format!` patterns in `FfmpegCommandBuilder::build`. -/
def Arg.render : Arg → String
  | .lit s => s
  | .size w h => toString w ++ "x" ++ toString h
  | .num n => toString n
  | .kbps n => toString n ++ "k"
  | .adev i => ":" ++ toString i
  | .x264ps k m => "keyint=" ++ toString k ++ ":min-keyint=" ++ toString m ++ ":scenecut=0"
  | .outPath p => p

/-- Is this argument the given literal string? -/
def Arg.isLit (a : Arg) (s : String) : Bool :=
  match a with
  | .lit t => t == s
  | _ => false

/-- The fields of `FfmpegCommandBuilder` in `src/ffmpeg.rs`. -/
structure FfmpegCommandBuilder where
  ffmpeg_path : String
  width : ℕ
  height : ℕ
  fps : ℤ
  bitrate_kbps : ℤ
  output_path : String
  encoder : VideoEncoder
  audio_input_device : Option String

/-- The leading arguments of `build`: logging flags and the raw-video
stdin input description. -/
def baseVideoInputArgs (b : FfmpegCommandBuilder) : List Arg :=
  [.lit "-hide_banner", .lit "-loglevel", .lit "warning", .lit "-y",
   .lit "-f", .lit "rawvideo", .lit "-pix_fmt", .lit "rgba",
   .lit "-s", .size b.width b.height, .lit "-r", .num b.fps,
   .lit "-i", .lit "-"]

/-- The second (avfoundation audio) input clause added by `build` when an
audio device is configured; `i` is the resolved device index. -/
def audioInputArgs (i : ℕ) : List Arg :=
  [.lit "-f", .lit "avfoundation", .lit "-i", .adev i]

/-- The CFR output arguments of `build`. -/
def outputCommonArgs (b : FfmpegCommandBuilder) : List Arg :=
  [.lit "-vsync", .lit "cfr", .lit "-r", .num b.fps,
   .lit "-pix_fmt", .lit "yuv420p"]

/-- The per-variant encoder arguments of the `match self.encoder` block in
`build`.  Arithmetic follows the source: `min`/`max` clamping for the
VideoToolbox bitrates, and rounding odd dimensions down by one. -/
def encoderArgs (b : FfmpegCommandBuilder) : List Arg :=
  match b.encoder with
  | .H264VideoToolbox =>
    let safe_bitrate := max (min b.bitrate_kbps 50000) 500
    let safe_width := if b.width % 2 = 0 then b.width else b.width - 1
    let safe_height := if b.height % 2 = 0 then b.height else b.height - 1
    [.lit "-c:v", .lit "h264_videotoolbox", .lit "-b:v", .kbps safe_bitrate,
     .lit "-maxrate", .kbps (safe_bitrate + 1000),
     .lit "-bufsize", .kbps (safe_bitrate * 2),
     .lit "-g", .num (b.fps * 2),
     .lit "-profile:v", .lit "high", .lit "-level", .lit "4.1",
     .lit "-allow_sw", .lit "1", .lit "-realtime", .lit "1",
     .lit "-s", .size safe_width safe_height]
  | .H264VideoToolboxFallback =>
    let safe_bitrate := max (min b.bitrate_kbps 20000) 1000
    let safe_width := if b.width % 2 = 0 then b.width else b.width - 1
    let safe_height := if b.height % 2 = 0 then b.height else b.height - 1
    [.lit "-c:v", .lit "h264_videotoolbox", .lit "-b:v", .kbps safe_bitrate,
     .lit "-profile:v", .lit "main", .lit "-level", .lit "3.1",
     .lit "-allow_sw", .lit "1",
     .lit "-s", .size safe_width safe_height]
  | .Libx264 =>
    [.lit "-c:v", .lit "libx264", .lit "-preset", .lit "veryfast",
     .lit "-tune", .lit "zerolatency",
     .lit "-b:v", .kbps b.bitrate_kbps,
     .lit "-g", .num (b.fps * 2),
     .lit "-x264-params", .x264ps (b.fps * 2) b.fps]

/-- The audio output arguments added by `build` when an audio device is
configured: codec, bitrate, sample rate, channels, filter chain, the two
stream mappings and the `-shortest` truncation. -/
def audioOutputArgs : List Arg :=
  [.lit "-c:a", .lit "aac", .lit "-b:a", .lit "192k",
   .lit "-ar", .lit "48000", .lit "-ac", .lit "2",
   .lit "-af", .lit "highpass=f=80,lowpass=f=15000,volume=0.8",
   .lit "-map", .lit "0:v", .lit "-map", .lit "1:a", .lit "-shortest"]

/-- The video-only stream mapping used by `build` when no audio device is
configured. -/
def videoOnlyMapArgs : List Arg :=
  [.lit "-map", .lit "0:v"]

/-- The trailing container arguments of `build`. -/
def tailArgs (b : FfmpegCommandBuilder) : List Arg :=
  [.lit "-movflags", .lit "faststart", .outPath b.output_path]

/-- The complete argument list produced by `FfmpegCommandBuilder::build`
(macOS configuration).  `devIndex` models `get_ffmpeg_device_index` from
`src/audio.rs`, which consults the live audio-device environment; the
source falls back to device index 2 when the lookup fails
(`.unwrap_or(2)`). -/
def FfmpegCommandBuilder.buildArgs (b : FfmpegCommandBuilder)
    (devIndex : String → Option ℕ) : List Arg :=
  baseVideoInputArgs b ++
  (match b.audio_input_device with
   | some d => audioInputArgs ((devIndex d).getD 2)
   | none => []) ++
  outputCommonArgs b ++
  encoderArgs b ++
  (match b.audio_input_device with
   | some _ => audioOutputArgs
   | none => videoOnlyMapArgs) ++
  tailArgs b

/-- Saturating multiplication `usize::saturating_mul`, with `usize` modelled
as 64-bit. -/
def satMul (a b : ℕ) : ℕ := min (a * b) (2 ^ 64 - 1)

/-- The clamped source byte index read by `resize_rgba_nn` for destination
pixel `(x, y)`: the nearest-neighbor row/column, each clamped into
`[0, dim - 1]`, times 4 bytes per pixel.  The source computes the raw
row/column with `f64` ratio arithmetic
(`(x as f64 * (sw as f64 / dw as f64)).floor()`); it is modelled here by
the exact rational floor `x * sw / dw`.  Every property proved below is
insensitive to that rounding because of the `min (· ) (dim - 1)` clamp
applied by the source. -/
def clampedSrcIdx (sw sh dw dh x y : ℕ) : ℕ :=
  min (y * sh / dh) (sh - 1) * sw * 4 + min (x * sw / dw) (sw - 1) * 4

/-- The four bytes copied by `resize_rgba_nn` for destination pixel
`(x, y)`. -/
def resizePixel (src : List ℕ) (sw sh dw dh x y : ℕ) : List ℕ :=
  [src.getD (clampedSrcIdx sw sh dw dh x y) 0,
   src.getD (clampedSrcIdx sw sh dw dh x y + 1) 0,
   src.getD (clampedSrcIdx sw sh dw dh x y + 2) 0,
   src.getD (clampedSrcIdx sw sh dw dh x y + 3) 0]

/-- One destination row produced by `resize_rgba_nn`. -/
def resizeRow (src : List ℕ) (sw sh dw dh y : ℕ) : List ℕ :=
  ((List.range dw).map (fun x => resizePixel src sw sh dw dh x y)).flatten

/-- Function `resize_rgba_nn` from `src/ffmpeg.rs`: nearest-neighbor resize of an
RGBA buffer.  Degenerate inputs return a zero buffer whose length uses
`usize::saturating_mul` exactly as the source does; otherwise each
destination pixel copies four bytes from the clamped source index. -/
def resize_rgba_nn (src : List ℕ) (sw sh dw dh : ℕ) : List ℕ :=
  if sw = 0 ∨ sh = 0 ∨ dw = 0 ∨ dh = 0 then
    List.replicate (satMul (satMul dw dh) 4) 0
  else
    ((List.range dh).map (fun y => resizeRow src sw sh dw dh y)).flatten

/-- A captured frame: RGBA byte buffer plus its true pixel dimensions, as
returned by `macos::capture_window_image`. -/
structure Frame where
  buf : List ℕ
  w : ℕ
  h : ℕ
deriving DecidableEq

/-- The even-dimension adjustment of `start_ffmpeg_for_window`
(`if actual % 2 != 0 { actual += 1 }`). -/
def evenUp (n : ℕ) : ℕ := if n % 2 = 0 then n else n + 1

/-- Geometry resolution at session start: the dimensions come from the
first capture when it succeeds, otherwise from the stored window hint
(`info.width.max(2) as usize`); each dimension is then rounded up to
even. -/
def resolveGeometry (cap : Option (ℕ × ℕ)) (hintW hintH : ℤ) : ℕ × ℕ :=
  match cap with
  | some (w, h) => (evenUp w, evenUp h)
  | none => (evenUp (max hintW 2).toNat, evenUp (max hintH 2).toNat)

/-- The seed-frame normalization step of `start_ffmpeg_for_window`: when
the first capture produced a buffer, the source captures a second time
purely to learn dimensions, and normalizes the seeded buffer only when
that second capture succeeds and reports dimensions different from the
resolved target. -/
def seedAfterResolve (first recapture : Option Frame) (ew eh : ℕ) :
    Option (List ℕ) :=
  match first with
  | none => none
  | some f =>
    match recapture with
    | some r =>
      if r.w ≠ ew ∨ r.h ≠ eh then
        some (resize_rgba_nn f.buf r.w r.h ew eh)
      else
        some f.buf
    | none => some f.buf

/-- Geometry resolution plus seed-frame normalization at session start,
combining `resolveGeometry` and `seedAfterResolve` as
`start_ffmpeg_for_window` does: returns `(expected_w, expected_h,
seeded last_frame)`. -/
def resolveAndSeed (first recapture : Option Frame) (hintW hintH : ℤ) :
    ℕ × ℕ × Option (List ℕ) :=
  match resolveGeometry (first.map (fun f => (f.w, f.h))) hintW hintH with
  | (ew, eh) => (ew, eh, seedAfterResolve first recapture ew eh)

/-- The failure sources of `start_ffmpeg_for_window` other than captures:
output-path preparation (`build_output_path`) and process spawning
(`spawn_ffmpeg_checked`). -/
inductive StartError
  | outputPathFailed
  | spawnFailed
deriving DecidableEq

/-- The result of `start_ffmpeg_for_window` as observed by its caller:
an error when the output path cannot be prepared or a spawn in the
fallback chain fails, and otherwise the resolved geometry together with
the seeded frame handed to the pump thread.  A failed first capture is
absorbed (the hint geometry is used and the seed is left to the pump
thread's retry loop); it never produces an error. -/
def sessionStart (first recapture : Option Frame) (hintW hintH : ℤ)
    (pathOk spawnOk : Bool) :
    Except StartError (ℕ × ℕ × Option (List ℕ)) :=
  if pathOk = false then .error .outputPathFailed
  else if spawnOk = false then .error .spawnFailed
  else .ok (resolveAndSeed first recapture hintW hintH)

/-- State of the frame-pump loop in `start_ffmpeg_for_window`: the next
scheduled emission time (nanoseconds), the number of frames written so
far, and the most recent normalized frame. -/
structure PumpState where
  next_due : ℕ
  frame_count : ℕ
  last_frame : Option (List ℕ)
deriving DecidableEq

/-- One write to the encoder's stdin pipe: the frame index
(`frame_count` after the increment), the schedule slot (`next_due` at
the moment of the write), and the buffer written. -/
structure Emission where
  idx : ℕ
  due : ℕ
  buf : List ℕ
deriving DecidableEq

/-- The catch-up emission loop
(`while Instant::now() >= next_due { ... }`): while the current time has
reached `next_due`, write `last_frame` (when present) and advance
`next_due` by one frame interval.  `now` is the clock value observed by
the loop; `ival` is `frame_interval` in nanoseconds, positive for every
frame rate the configuration admits. -/
def catchUp (now ival : ℕ) (hI : 0 < ival) (s : PumpState) :
    PumpState × List Emission :=
  if h : s.next_due ≤ now then
    match s.last_frame with
    | some buf =>
      let r := catchUp now ival hI
        { s with frame_count := s.frame_count + 1, next_due := s.next_due + ival }
      (r.1, ⟨s.frame_count + 1, s.next_due, buf⟩ :: r.2)
    | none =>
      catchUp now ival hI { s with next_due := s.next_due + ival }
  else
    (s, [])
termination_by now + 1 - s.next_due
decreasing_by
  all_goals simp_all
  all_goals omega

/-- The refresh step of the pump loop: one capture attempt; a fresh frame
replaces `last_frame` (normalized first when its dimensions differ from
the target), while a capture miss leaves the previous frame in place. -/
def refresh (cap : Option Frame) (ew eh : ℕ) (s : PumpState) : PumpState :=
  match cap with
  | none => s
  | some f =>
    if f.w ≠ ew ∨ f.h ≠ eh then
      { s with last_frame := some (resize_rgba_nn f.buf f.w f.h ew eh) }
    else
      { s with last_frame := some f.buf }

/-- A run of the pump loop over a list of iterations, each supplying the
clock value observed by the catch-up loop and the capture attempt's
result.  Returns the final state and all emissions in write order. -/
def pumpRun (ival : ℕ) (hI : 0 < ival) (ew eh : ℕ) :
    List (ℕ × Option Frame) → PumpState → PumpState × List Emission
  | [], s => (s, [])
  | (now, cap) :: rest, s =>
    let r1 := catchUp now ival hI s
    let r2 := pumpRun ival hI ew eh rest (refresh cap ew eh r1.1)
    (r2.1, r1.2 ++ r2.2)

/-- The observable outcome of a `try_wait` probe on the encoder
subprocess. -/
inductive ProbeResult
  | running
  | exited (code : ℤ)
deriving DecidableEq

/-- The probe outcomes driving the fallback sequence of
`start_ffmpeg_for_window`: the `try_wait` after the first grace period,
the result of `is_videotoolbox_error` (only consulted when the first
probe saw the process still running), and the `try_wait` after the
fallback's grace period. -/
structure SupervisorEnv where
  probe1 : ProbeResult
  vtError : Bool
  probe2 : ProbeResult
deriving DecidableEq

/-- The sequence of encoder variants spawned by the fallback logic of
`start_ffmpeg_for_window`, in spawn order, as a function of the probe
outcomes.  The first branch fires whenever the first `try_wait` reports
the process exited — with any exit status. -/
def superviseSpawns (enc0 : VideoEncoder) (env : SupervisorEnv) :
    List VideoEncoder :=
  match env.probe1 with
  | .exited _ => [enc0, .Libx264]
  | .running =>
    if env.vtError then
      match env.probe2 with
      | .exited _ => [enc0, .H264VideoToolboxFallback, .Libx264]
      | .running => [enc0, .H264VideoToolboxFallback]
    else
      [enc0]

/-- Structure `RecorderState` from `src/recorder.rs`: the registry of running
recordings, a `HashMap<u64, (Child, Arc<AtomicBool>)>` modelled as an
association list with at most one entry per key; `V` stands for the
`(Child, Arc<AtomicBool>)` pair. -/
structure RecorderState (V : Type) where
  running : List (ℕ × V)

/-- Method `RecorderState::is_recording`. -/
def RecorderState.is_recording {V : Type} (s : RecorderState V) (id : ℕ) :
    Bool :=
  s.running.any (fun p => p.1 == id)

/-- Method `RecorderState::start_recording` (`HashMap::insert`: replaces any
previous entry for the key). -/
def RecorderState.start_recording {V : Type} (s : RecorderState V) (id : ℕ)
    (v : V) : RecorderState V :=
  ⟨(id, v) :: s.running.filter (fun p => p.1 != id)⟩

/-- Method `RecorderState::stop_recording` (`HashMap::remove`): the entry stored
for the key, if any, together with the state without it. -/
def RecorderState.stop_recording {V : Type} (s : RecorderState V) (id : ℕ) :
    Option V × RecorderState V :=
  ((s.running.find? (fun p => p.1 == id)).map Prod.snd,
   ⟨s.running.filter (fun p => p.1 != id)⟩)

/-- Method `RecorderState::stop_all` (`HashMap::drain`): all entries, and the
emptied state. -/
def RecorderState.stop_all {V : Type} (s : RecorderState V) :
    List (ℕ × V) × RecorderState V :=
  (s.running, ⟨[]⟩)

/-- Two arguments appear adjacently, in this order, somewhere in the
argument list; used to state that a flag is followed by its value. -/
def hasPair (args : List Arg) (a b : Arg) : Prop :=
  ∃ i, args[i]? = some a ∧ args[i + 1]? = some b

theorem evenUp_mod (n : ℕ) : evenUp n % 2 = 0 := by
  unfold evenUp
  split <;> omega

theorem evenUp_bounds (n : ℕ) : n ≤ evenUp n ∧ evenUp n ≤ n + 1 := by
  unfold evenUp
  split <;> omega

/-- C7: when session start resolves the target geometry from a capture
(or the stored hint), each odd dimension is rounded up to the next even
number; in particular 101×151 resolves to 102×152. -/
theorem resolveGeometry_rounds_up_to_even (cap : Option (ℕ × ℕ))
    (hintW hintH : ℤ) :
    (resolveGeometry cap hintW hintH).1 % 2 = 0 ∧
    (resolveGeometry cap hintW hintH).2 % 2 = 0 ∧
    (∀ w h, cap = some (w, h) →
      resolveGeometry cap hintW hintH = (evenUp w, evenUp h) ∧
      w ≤ evenUp w ∧ evenUp w ≤ w + 1 ∧ h ≤ evenUp h ∧ evenUp h ≤ h + 1) ∧
    resolveGeometry (some (101, 151)) hintW hintH = (102, 152) := by
  refine ⟨?_, ?_, ?_, ?_⟩
  · rcases cap with _ | ⟨w, h⟩ <;> simp [resolveGeometry, evenUp_mod]
  · rcases cap with _ | ⟨w, h⟩ <;> simp [resolveGeometry, evenUp_mod]
  · rintro w h rfl
    exact ⟨rfl, (evenUp_bounds w).1, (evenUp_bounds w).2,
      (evenUp_bounds h).1, (evenUp_bounds h).2⟩
  · rfl

/-- Witness for `resolveGeometry_rounds_up_to_even` at the capture
`101 × 151`. -/
theorem resolveGeometry_rounds_up_to_even_witness :
    resolveGeometry (some (101, 151)) 0 0 = (evenUp 101, evenUp 151) ∧
    resolveGeometry (some (101, 151)) 0 0 = (102, 152) :=
  ⟨((resolveGeometry_rounds_up_to_even (some (101, 151)) 0 0).2.2.1 101 151 rfl).1,
   (resolveGeometry_rounds_up_to_even (some (101, 151)) 0 0).2.2.2⟩

theorem satMul_of_le {a b : ℕ} (h : a * b ≤ 2 ^ 64 - 1) : satMul a b = a * b :=
  min_eq_left h

/-- C8: `resize_rgba_nn` with a zero source dimension returns a buffer of
exactly `dw * dh * 4` zero bytes instead of failing (for target sizes
whose byte count fits in `usize`, so that the source's saturating
multiplication is exact). -/
theorem resize_degenerate_all_zero (src : List ℕ) (sw sh dw dh : ℕ)
    (hdeg : sw = 0 ∨ sh = 0) (hfit : dw * dh * 4 ≤ 2 ^ 64 - 1) :
    resize_rgba_nn src sw sh dw dh = List.replicate (dw * dh * 4) 0 ∧
    (resize_rgba_nn src sw sh dw dh).length = dw * dh * 4 ∧
    ∀ byte ∈ resize_rgba_nn src sw sh dw dh, byte = 0 := by
  have hcond : sw = 0 ∨ sh = 0 ∨ dw = 0 ∨ dh = 0 := by tauto
  have h1 : dw * dh ≤ 2 ^ 64 - 1 :=
    le_trans (by nlinarith) hfit
  have hmain : resize_rgba_nn src sw sh dw dh = List.replicate (dw * dh * 4) 0 := by
    rw [resize_rgba_nn, if_pos hcond, satMul_of_le h1, satMul_of_le hfit]
  refine ⟨hmain, ?_, ?_⟩
  · rw [hmain, List.length_replicate]
  · intro byte hb
    rw [hmain] at hb
    exact List.eq_of_mem_replicate hb

/-- Witness for `resize_degenerate_all_zero` with a zero source width and
a 2×1 target. -/
theorem resize_degenerate_all_zero_witness :
    resize_rgba_nn [1, 2, 3] 0 3 2 1 = List.replicate (2 * 1 * 4) 0 ∧
    (resize_rgba_nn [1, 2, 3] 0 3 2 1).length = 2 * 1 * 4 :=
  ⟨(resize_degenerate_all_zero [1, 2, 3] 0 3 2 1 (Or.inl rfl) (by norm_num)).1,
   (resize_degenerate_all_zero [1, 2, 3] 0 3 2 1 (Or.inl rfl) (by norm_num)).2.1⟩

/-- C10: the session registry semantics of `RecorderState`: after
`start_recording` the id is recording; `stop_recording` returns the entry
most recently stored for the id (`none` when absent) and afterwards the
id is not recording; `stop_all` returns exactly the registered entries
and empties the registry. -/
theorem recorder_registry_spec (V : Type) (s : RecorderState V) (id j : ℕ)
    (v : V) :
    (s.start_recording id v).is_recording id = true ∧
    ((s.start_recording id v).stop_recording id).1 = some v ∧
    ((s.stop_recording id).2).is_recording id = false ∧
    (s.is_recording id = false → (s.stop_recording id).1 = none) ∧
    (s.stop_all).1 = s.running ∧
    ((s.stop_all).2).is_recording j = false := by
  refine ⟨?_, ?_, ?_, ?_, rfl, rfl⟩
  · simp [RecorderState.is_recording, RecorderState.start_recording]
  · simp [RecorderState.stop_recording, RecorderState.start_recording]
  · simp only [RecorderState.is_recording, RecorderState.stop_recording]
    rw [List.any_eq_false]
    intro p hp
    have := (List.mem_filter.mp hp).2
    simp_all
  · intro h
    simp only [RecorderState.is_recording, List.any_eq_false] at h
    simp only [RecorderState.stop_recording]
    rw [List.find?_eq_none.mpr h]
    rfl

/-- Witness for `recorder_registry_spec` on a one-entry registry. -/
theorem recorder_registry_spec_witness :
    ((⟨[(1, 5)]⟩ : RecorderState ℕ).start_recording 2 7).is_recording 2 = true ∧
    (((⟨[(1, 5)]⟩ : RecorderState ℕ).start_recording 2 7).stop_recording 2).1 = some 7 ∧
    (((⟨[(1, 5)]⟩ : RecorderState ℕ).stop_recording 2).2).is_recording 2 = false ∧
    ((⟨[(1, 5)]⟩ : RecorderState ℕ).stop_recording 2).1 = none ∧
    ((⟨[(1, 5)]⟩ : RecorderState ℕ).stop_all).1 = [(1, 5)] ∧
    (((⟨[(1, 5)]⟩ : RecorderState ℕ).stop_all).2).is_recording 3 = false :=
  ⟨(recorder_registry_spec ℕ ⟨[(1, 5)]⟩ 2 3 7).1,
   (recorder_registry_spec ℕ ⟨[(1, 5)]⟩ 2 3 7).2.1,
   (recorder_registry_spec ℕ ⟨[(1, 5)]⟩ 2 3 7).2.2.1,
   (recorder_registry_spec ℕ ⟨[(1, 5)]⟩ 2 3 7).2.2.2.1 rfl,
   (recorder_registry_spec ℕ ⟨[(1, 5)]⟩ 2 3 7).2.2.2.2.1,
   (recorder_registry_spec ℕ ⟨[(1, 5)]⟩ 2 3 7).2.2.2.2.2⟩

/-- C2 counterexample: an early exit with status zero also takes the
direct-to-software transition, contradicting the claim that the
transition is only taken on a nonzero exit status. -/
theorem supervisor_exit_zero_counterexample :
    ¬ (∀ (enc0 : VideoEncoder) (env : SupervisorEnv),
        (env.probe1 = .running ∨ env.probe1 = .exited 0) →
        superviseSpawns enc0 env ≠ [enc0, .Libx264]) := by
  intro hclaim
  exact hclaim .H264VideoToolbox ⟨.exited 0, false, .running⟩ (Or.inr rfl) rfl

/-- C2 (amended): if the first `try_wait` probe reports the subprocess
exited — with any status — the supervisor respawns exactly once with the
software variant and attempts no further fallback; if the probe reports
it still running, the direct-to-software transition is not taken. -/
theorem supervisor_early_exit_goes_software (enc0 : VideoEncoder)
    (env : SupervisorEnv) :
    (∀ c, env.probe1 = .exited c →
      superviseSpawns enc0 env = [enc0, .Libx264]) ∧
    (env.probe1 = .running →
      superviseSpawns enc0 env ≠ [enc0, .Libx264]) := by
  constructor
  · intro c hc
    simp [superviseSpawns, hc]
  · intro hr
    simp only [superviseSpawns, hr]
    cases henv : env.vtError
    · simp
    · cases env.probe2 <;> simp

/-- Witness for `supervisor_early_exit_goes_software`: a nonzero early
exit of the primary encoder yields exactly one software respawn, and a
still-running primary takes no direct-to-software transition. -/
theorem supervisor_early_exit_goes_software_witness :
    superviseSpawns .H264VideoToolbox ⟨.exited 3, false, .running⟩ =
      [.H264VideoToolbox, .Libx264] ∧
    superviseSpawns .H264VideoToolbox ⟨.running, false, .running⟩ ≠
      [.H264VideoToolbox, .Libx264] :=
  ⟨(supervisor_early_exit_goes_software .H264VideoToolbox
      ⟨.exited 3, false, .running⟩).1 3 rfl,
   (supervisor_early_exit_goes_software .H264VideoToolbox
      ⟨.running, false, .running⟩).2 rfl⟩

/-- C4 counterexample: with output-path preparation and spawning
succeeding, a session whose first capture missed still starts
successfully, contradicting the claim that start fails exactly when no
frame was captured at session start. -/
theorem session_start_capture_miss_counterexample :
    ¬ (∀ (first recapture : Option Frame) (hintW hintH : ℤ),
        (∃ e, sessionStart first recapture hintW hintH true true = .error e) ↔
          first = none) := by
  intro hclaim
  rcases (hclaim none none 100 100).2 rfl with ⟨e, he⟩
  simp [sessionStart] at he

/-- C4 (amended): session start fails exactly when output-path
preparation or a spawn fails; a capture miss — at session start or at any
later point — is absorbed (start falls back to the hint geometry, and the
pump's refresh step keeps the previous frame), never surfaced as a hard
failure. -/
theorem session_start_error_iff_path_or_spawn (first recapture : Option Frame)
    (hintW hintH : ℤ) (pathOk spawnOk : Bool) :
    ((∃ e, sessionStart first recapture hintW hintH pathOk spawnOk = .error e) ↔
      (pathOk = false ∨ spawnOk = false)) ∧
    (∀ (ew eh : ℕ) (s : PumpState), refresh none ew eh s = s) := by
  constructor
  · cases pathOk <;> cases spawnOk <;> simp [sessionStart]
  · intro ew eh s
    rfl

/-- Witness for `session_start_error_iff_path_or_spawn`: a failing output
path makes start fail even though a frame was captured, and a refresh
miss leaves the pump state unchanged. -/
theorem session_start_error_iff_path_or_spawn_witness :
    (∃ e, sessionStart (some ⟨[0], 1, 1⟩) none 0 0 false true = .error e) ∧
    refresh none 2 2 ⟨0, 0, none⟩ = ⟨0, 0, none⟩ :=
  ⟨(session_start_error_iff_path_or_spawn (some ⟨[0], 1, 1⟩) none 0 0 false true).1.2
      (Or.inl rfl),
   (session_start_error_iff_path_or_spawn (some ⟨[0], 1, 1⟩) none 0 0 false true).2
      2 2 ⟨0, 0, none⟩⟩

/-- C5 counterexample: with an audio device configured, `build` consults
the audio-device environment (`get_ffmpeg_device_index`), so two calls
with identical builder inputs can produce different argument lists when
that environment differs — `build` is not a pure function of the listed
inputs alone. -/
theorem build_depends_on_device_env_counterexample :
    ¬ (∀ (b : FfmpegCommandBuilder) (env1 env2 : String → Option ℕ),
        b.buildArgs env1 = b.buildArgs env2) := by
  intro hclaim
  have h := hclaim ⟨"ffmpeg", 100, 100, 30, 6000, "out.mp4", .Libx264, some "2"⟩
    (fun _ => some 0) (fun _ => some 1)
  simp [FfmpegCommandBuilder.buildArgs, baseVideoInputArgs, audioInputArgs,
    outputCommonArgs, encoderArgs, audioOutputArgs, tailArgs] at h

/-- C5 (amended): `build` is a pure function of its inputs together with
the audio-device environment it consults: with no audio device the
argument list depends on the builder fields alone, and with an audio
device it depends only on the builder fields and the device-index lookup
result for that device. -/
theorem build_pure_given_device_lookup (b : FfmpegCommandBuilder)
    (env1 env2 : String → Option ℕ) :
    (b.audio_input_device = none → b.buildArgs env1 = b.buildArgs env2) ∧
    (∀ d, b.audio_input_device = some d → env1 d = env2 d →
      b.buildArgs env1 = b.buildArgs env2) := by
  constructor
  · intro hn
    simp [FfmpegCommandBuilder.buildArgs, hn]
  · intro d hd he
    simp [FfmpegCommandBuilder.buildArgs, hd, he]

theorem hasPair_append_left {l1 : List Arg} (l2 : List Arg) {a b : Arg}
    (h : hasPair l1 a b) : hasPair (l1 ++ l2) a b := by
  obtain ⟨i, h1, h2⟩ := h
  have hi : i + 1 < l1.length := by
    rcases List.getElem?_eq_some.mp h2 with ⟨hi, _⟩
    exact hi
  refine ⟨i, ?_, ?_⟩
  · rw [List.getElem?_append_left (by omega)]
    exact h1
  · rw [List.getElem?_append_left hi]
    exact h2

theorem hasPair_append_right (l1 : List Arg) {l2 : List Arg} {a b : Arg}
    (h : hasPair l2 a b) : hasPair (l1 ++ l2) a b := by
  obtain ⟨i, h1, h2⟩ := h
  refine ⟨l1.length + i, ?_, ?_⟩
  · rw [List.getElem?_append_right (by omega)]
    simpa using h1
  · rw [List.getElem?_append_right (by omega)]
    have he : l1.length + i + 1 - l1.length = i + 1 := by omega
    rw [he]
    exact h2

theorem countP_isLit_base (b : FfmpegCommandBuilder) (t : String) :
    (baseVideoInputArgs b).countP (fun a => a.isLit t) =
      (["-hide_banner", "-loglevel", "warning", "-y", "-f", "rawvideo",
        "-pix_fmt", "rgba", "-s", "-r", "-i", "-"].countP (fun u => u == t)) := by
  simp [baseVideoInputArgs, List.countP_cons, Arg.isLit]

theorem countP_isLit_audioIn (i : ℕ) (t : String) :
    (audioInputArgs i).countP (fun a => a.isLit t) =
      (["-f", "avfoundation", "-i"].countP (fun u => u == t)) := by
  simp [audioInputArgs, List.countP_cons, Arg.isLit]

theorem countP_isLit_common (b : FfmpegCommandBuilder) (t : String) :
    (outputCommonArgs b).countP (fun a => a.isLit t) =
      (["-vsync", "cfr", "-r", "-pix_fmt", "yuv420p"].countP (fun u => u == t)) := by
  simp [outputCommonArgs, List.countP_cons, Arg.isLit]

theorem countP_i_enc (b : FfmpegCommandBuilder) :
    (encoderArgs b).countP (fun a => a.isLit "-i") = 0 := by
  cases henc : b.encoder <;> simp [encoderArgs, henc, List.countP_cons, Arg.isLit]

theorem countP_map_enc (b : FfmpegCommandBuilder) :
    (encoderArgs b).countP (fun a => a.isLit "-map") = 0 := by
  cases henc : b.encoder <;> simp [encoderArgs, henc, List.countP_cons, Arg.isLit]

theorem countP_isLit_audioOut (t : String) :
    audioOutputArgs.countP (fun a => a.isLit t) =
      (["-c:a", "aac", "-b:a", "192k", "-ar", "48000", "-ac", "2", "-af",
        "highpass=f=80,lowpass=f=15000,volume=0.8", "-map", "0:v", "-map",
        "1:a", "-shortest"].countP (fun u => u == t)) := by
  simp [audioOutputArgs, List.countP_cons, Arg.isLit]

theorem countP_isLit_videoOnly (t : String) :
    videoOnlyMapArgs.countP (fun a => a.isLit t) =
      (["-map", "0:v"].countP (fun u => u == t)) := by
  simp [videoOnlyMapArgs, List.countP_cons, Arg.isLit]

theorem countP_isLit_tail (b : FfmpegCommandBuilder) (t : String) :
    (tailArgs b).countP (fun a => a.isLit t) =
      (["-movflags", "faststart"].countP (fun u => u == t)) := by
  simp [tailArgs, List.countP_cons, Arg.isLit]

theorem aac_not_mem_encoderArgs (b : FfmpegCommandBuilder) :
    Arg.lit "aac" ∉ encoderArgs b := by
  cases henc : b.encoder <;> simp [encoderArgs, henc]

theorem ca_not_mem_encoderArgs (b : FfmpegCommandBuilder) :
    Arg.lit "-c:a" ∉ encoderArgs b := by
  cases henc : b.encoder <;> simp [encoderArgs, henc]

theorem onea_not_mem_encoderArgs (b : FfmpegCommandBuilder) :
    Arg.lit "1:a" ∉ encoderArgs b := by
  cases henc : b.encoder <;> simp [encoderArgs, henc]

theorem shortest_not_mem_encoderArgs (b : FfmpegCommandBuilder) :
    Arg.lit "-shortest" ∉ encoderArgs b := by
  cases henc : b.encoder <;> simp [encoderArgs, henc]

/-- C6: with an audio device configured, `build` produces two distinct
input clauses (raw video on stdin, avfoundation audio), the audio
codec/bitrate/sample-rate/channel directives, explicit video-from-input-0
and audio-from-input-1 mappings, and the `-shortest` truncation; with no
audio device, only the video stream of input 0 is mapped and no audio
directives appear. -/
theorem build_audio_mapping (b : FfmpegCommandBuilder)
    (env : String → Option ℕ) :
    (∀ d, b.audio_input_device = some d →
      (b.buildArgs env).countP (fun a => a.isLit "-i") = 2 ∧
      hasPair (b.buildArgs env) (.lit "-i") (.lit "-") ∧
      hasPair (b.buildArgs env) (.lit "-i") (.adev ((env d).getD 2)) ∧
      hasPair (b.buildArgs env) (.lit "-c:a") (.lit "aac") ∧
      hasPair (b.buildArgs env) (.lit "-b:a") (.lit "192k") ∧
      hasPair (b.buildArgs env) (.lit "-ar") (.lit "48000") ∧
      hasPair (b.buildArgs env) (.lit "-ac") (.lit "2") ∧
      hasPair (b.buildArgs env) (.lit "-map") (.lit "0:v") ∧
      hasPair (b.buildArgs env) (.lit "-map") (.lit "1:a") ∧
      Arg.lit "-shortest" ∈ b.buildArgs env) ∧
    (b.audio_input_device = none →
      (b.buildArgs env).countP (fun a => a.isLit "-i") = 1 ∧
      hasPair (b.buildArgs env) (.lit "-i") (.lit "-") ∧
      hasPair (b.buildArgs env) (.lit "-map") (.lit "0:v") ∧
      (b.buildArgs env).countP (fun a => a.isLit "-map") = 1 ∧
      Arg.lit "aac" ∉ b.buildArgs env ∧
      Arg.lit "-c:a" ∉ b.buildArgs env ∧
      Arg.lit "1:a" ∉ b.buildArgs env ∧
      Arg.lit "-shortest" ∉ b.buildArgs env) := by
  constructor
  · intro d hd
    simp only [FfmpegCommandBuilder.buildArgs, hd]
    refine ⟨?_, ?_, ?_, ?_, ?_, ?_, ?_, ?_, ?_, ?_⟩
    · simp only [List.countP_append, countP_isLit_base, countP_isLit_audioIn,
        countP_isLit_common, countP_i_enc, countP_isLit_audioOut,
        countP_isLit_tail]
      decide
    · exact hasPair_append_left _ (hasPair_append_left _ (hasPair_append_left _
        (hasPair_append_left _ (hasPair_append_left _ ⟨12, rfl, rfl⟩))))
    · exact hasPair_append_left _ (hasPair_append_left _ (hasPair_append_left _
        (hasPair_append_left _ (hasPair_append_right _ ⟨2, rfl, rfl⟩))))
    · exact hasPair_append_left _ (hasPair_append_right _ ⟨0, rfl, rfl⟩)
    · exact hasPair_append_left _ (hasPair_append_right _ ⟨2, rfl, rfl⟩)
    · exact hasPair_append_left _ (hasPair_append_right _ ⟨4, rfl, rfl⟩)
    · exact hasPair_append_left _ (hasPair_append_right _ ⟨6, rfl, rfl⟩)
    · exact hasPair_append_left _ (hasPair_append_right _ ⟨10, rfl, rfl⟩)
    · exact hasPair_append_left _ (hasPair_append_right _ ⟨12, rfl, rfl⟩)
    · simp [audioOutputArgs]
  · intro hn
    simp only [FfmpegCommandBuilder.buildArgs, hn]
    refine ⟨?_, ?_, ?_, ?_, ?_, ?_, ?_, ?_⟩
    · simp only [List.countP_append, countP_isLit_base, countP_isLit_common,
        countP_i_enc, countP_isLit_videoOnly, countP_isLit_tail,
        List.countP_nil]
      decide
    · exact hasPair_append_left _ (hasPair_append_left _ (hasPair_append_left _
        (hasPair_append_left _ (hasPair_append_left _ ⟨12, rfl, rfl⟩))))
    · exact hasPair_append_left _ (hasPair_append_right _ ⟨0, rfl, rfl⟩)
    · simp only [List.countP_append, countP_isLit_base, countP_isLit_common,
        countP_map_enc, countP_isLit_videoOnly, countP_isLit_tail,
        List.countP_nil]
      decide
    · simp only [List.append_assoc, List.mem_append]
      push_neg
      refine ⟨?_, ?_, ?_, aac_not_mem_encoderArgs b, ?_, ?_⟩ <;>
        simp [baseVideoInputArgs, outputCommonArgs, videoOnlyMapArgs, tailArgs]
    · simp only [List.append_assoc, List.mem_append]
      push_neg
      refine ⟨?_, ?_, ?_, ca_not_mem_encoderArgs b, ?_, ?_⟩ <;>
        simp [baseVideoInputArgs, outputCommonArgs, videoOnlyMapArgs, tailArgs]
    · simp only [List.append_assoc, List.mem_append]
      push_neg
      refine ⟨?_, ?_, ?_, onea_not_mem_encoderArgs b, ?_, ?_⟩ <;>
        simp [baseVideoInputArgs, outputCommonArgs, videoOnlyMapArgs, tailArgs]
    · simp only [List.append_assoc, List.mem_append]
      push_neg
      refine ⟨?_, ?_, ?_, shortest_not_mem_encoderArgs b, ?_, ?_⟩ <;>
        simp [baseVideoInputArgs, outputCommonArgs, videoOnlyMapArgs, tailArgs]

/-- Witness for `build_audio_mapping` on a concrete builder with audio
device "2" and one with no audio device. -/
theorem build_audio_mapping_witness :
    ((⟨"ffmpeg", 100, 100, 30, 6000, "o.mp4", .Libx264, some "2"⟩ :
        FfmpegCommandBuilder).buildArgs (fun _ => some 3)).countP
      (fun a => a.isLit "-i") = 2 ∧
    Arg.lit "-shortest" ∈
      ((⟨"ffmpeg", 100, 100, 30, 6000, "o.mp4", .Libx264, some "2"⟩ :
        FfmpegCommandBuilder).buildArgs (fun _ => some 3)) ∧
    Arg.lit "-shortest" ∉
      ((⟨"ffmpeg", 100, 100, 30, 6000, "o.mp4", .Libx264, none⟩ :
        FfmpegCommandBuilder).buildArgs (fun _ => some 3)) :=
  ⟨((build_audio_mapping ⟨"ffmpeg", 100, 100, 30, 6000, "o.mp4", .Libx264, some "2"⟩
      (fun _ => some 3)).1 "2" rfl).1,
   ((build_audio_mapping ⟨"ffmpeg", 100, 100, 30, 6000, "o.mp4", .Libx264, some "2"⟩
      (fun _ => some 3)).1 "2" rfl).2.2.2.2.2.2.2.2.2,
   ((build_audio_mapping ⟨"ffmpeg", 100, 100, 30, 6000, "o.mp4", .Libx264, none⟩
      (fun _ => some 3)).2 rfl).2.2.2.2.2.2.2⟩

/-- Witness for `build_pure_given_device_lookup`: with no audio device the
argument list is independent of the device environment. -/
theorem build_pure_given_device_lookup_witness :
    (⟨"ffmpeg", 100, 100, 30, 6000, "o.mp4", .Libx264, none⟩ :
      FfmpegCommandBuilder).buildArgs (fun _ => some 0) =
    (⟨"ffmpeg", 100, 100, 30, 6000, "o.mp4", .Libx264, none⟩ :
      FfmpegCommandBuilder).buildArgs (fun _ => some 5) :=
  (build_pure_given_device_lookup _ (fun _ => some 0) (fun _ => some 5)).1 rfl

theorem resizeRow_length (src : List ℕ) (sw sh dw dh y : ℕ) :
    (resizeRow src sw sh dw dh y).length = dw * 4 := by
  rw [resizeRow, List.length_flatten, List.map_map]
  have h : (List.length ∘ fun x => resizePixel src sw sh dw dh x y) =
      fun _ => 4 :=
    funext fun x => rfl
  rw [h, List.map_const', List.sum_replicate, List.length_range, smul_eq_mul]

theorem resize_length_pos (src : List ℕ) (sw sh dw dh : ℕ)
    (h : ¬(sw = 0 ∨ sh = 0 ∨ dw = 0 ∨ dh = 0)) :
    (resize_rgba_nn src sw sh dw dh).length = dw * dh * 4 := by
  rw [resize_rgba_nn, if_neg h, List.length_flatten, List.map_map]
  have hc : (List.length ∘ fun y => resizeRow src sw sh dw dh y) =
      fun _ => dw * 4 :=
    funext fun y => resizeRow_length src sw sh dw dh y
  rw [hc, List.map_const', List.sum_replicate, List.length_range, smul_eq_mul]
  ring

/-- C9: `resize_rgba_nn` is total and in-bounds: for any source buffer
holding at least `sw * sh * 4` bytes, the result has length
`dw * dh * 4` (a zero target dimension yields the empty buffer via the
saturating multiplication rather than a panic), and every four-byte
source read starts at a clamped index that stays within the source
buffer. -/
theorem resize_rgba_nn_total_inbounds (src : List ℕ) (sw sh dw dh : ℕ)
    (hsrc : sw * sh * 4 ≤ src.length) (hfit : dw * dh * 4 ≤ 2 ^ 64 - 1) :
    (resize_rgba_nn src sw sh dw dh).length = dw * dh * 4 ∧
    (dw = 0 ∨ dh = 0 → resize_rgba_nn src sw sh dw dh = []) ∧
    (∀ x y, x < dw → y < dh → 0 < sw → 0 < sh →
      clampedSrcIdx sw sh dw dh x y + 4 ≤ sw * sh * 4 ∧
      clampedSrcIdx sw sh dw dh x y + 4 ≤ src.length) := by
  refine ⟨?_, ?_, ?_⟩
  · by_cases h : sw = 0 ∨ sh = 0 ∨ dw = 0 ∨ dh = 0
    · have h1 : dw * dh ≤ 2 ^ 64 - 1 := by nlinarith
      have e1 : satMul dw dh = dw * dh := satMul_of_le h1
      have e2 : satMul (dw * dh) 4 = dw * dh * 4 := satMul_of_le hfit
      rw [resize_rgba_nn, if_pos h, List.length_replicate, e1, e2]
    · exact resize_length_pos src sw sh dw dh h
  · intro hd
    have h : sw = 0 ∨ sh = 0 ∨ dw = 0 ∨ dh = 0 := by tauto
    rw [resize_rgba_nn, if_pos h]
    rcases hd with rfl | rfl <;> simp [satMul]
  · intro x y hx hy hsw hsh
    obtain ⟨sw1, rfl⟩ : ∃ sw1, sw = sw1 + 1 := ⟨sw - 1, by omega⟩
    obtain ⟨sh1, rfl⟩ : ∃ sh1, sh = sh1 + 1 := ⟨sh - 1, by omega⟩
    have ha : min (y * (sh1 + 1) / dh) ((sh1 + 1) - 1) ≤ sh1 := by simp
    have hb : min (x * (sw1 + 1) / dw) ((sw1 + 1) - 1) ≤ sw1 := by simp
    have hmain : clampedSrcIdx (sw1 + 1) (sh1 + 1) dw dh x y + 4 ≤
        (sw1 + 1) * (sh1 + 1) * 4 := by
      rw [clampedSrcIdx]
      nlinarith [Nat.mul_le_mul_right (sw1 + 1) ha, ha, hb]
    exact ⟨hmain, le_trans hmain hsrc⟩

/-- Witness for `resize_rgba_nn_total_inbounds` on a 2×2 source and a 1×1
target. -/
theorem resize_rgba_nn_total_inbounds_witness :
    (resize_rgba_nn (List.replicate 16 7) 2 2 1 1).length = 1 * 1 * 4 ∧
    clampedSrcIdx 2 2 1 1 0 0 + 4 ≤ 2 * 2 * 4 :=
  ⟨(resize_rgba_nn_total_inbounds (List.replicate 16 7) 2 2 1 1 (by simp)
      (by norm_num)).1,
   ((resize_rgba_nn_total_inbounds (List.replicate 16 7) 2 2 1 1 (by simp)
      (by norm_num)).2.2 0 0 (by norm_num) (by norm_num) (by norm_num)
      (by norm_num)).1⟩

theorem catchUp_spec (now ival : ℕ) (hI : 0 < ival) (s : PumpState)
    (buf : List ℕ) :
    s.last_frame = some buf →
    ((catchUp now ival hI s).1.last_frame = some buf ∧
     (catchUp now ival hI s).1.frame_count =
       s.frame_count + (catchUp now ival hI s).2.length ∧
     (catchUp now ival hI s).1.next_due =
       s.next_due + (catchUp now ival hI s).2.length * ival ∧
     now < (catchUp now ival hI s).1.next_due ∧
     (catchUp now ival hI s).2.map Emission.idx =
       List.range' (s.frame_count + 1) (catchUp now ival hI s).2.length 1 ∧
     (catchUp now ival hI s).2.map Emission.due =
       List.range' s.next_due (catchUp now ival hI s).2.length ival) := by
  induction s using catchUp.induct now ival hI with
  | case1 x hle val hval ih =>
    intro hs
    rw [hval] at hs ih
    obtain rfl : val = buf := Option.some.inj hs
    rw [catchUp.eq_def, dif_pos hle, hval]
    simp only
    obtain ⟨ih1, ih2, ih3, ih4, ih5, ih6⟩ := ih rfl
    dsimp only at ih1 ih2 ih3 ih4 ih5 ih6 ⊢
    refine ⟨ih1, ?_, ?_, ih4, ?_, ?_⟩
    · simp only [List.length_cons]
      omega
    · simp only [List.length_cons]
      rw [ih3]
      ring
    · simp only [List.length_cons, List.map_cons, List.range'_succ]
      rw [ih5]
    · simp only [List.length_cons, List.map_cons, List.range'_succ]
      rw [ih6]
  | case2 x hle hval ih =>
    intro hs
    rw [hval] at hs
    cases hs
  | case3 x hgt =>
    intro hs
    rw [catchUp.eq_def, dif_neg hgt]
    simp only [List.length_nil, List.map_nil, List.range']
    exact ⟨hs, by omega, by omega, by omega, trivial, trivial⟩

theorem refresh_preserves (cap : Option Frame) (ew eh : ℕ) (s : PumpState) :
    (refresh cap ew eh s).next_due = s.next_due ∧
    (refresh cap ew eh s).frame_count = s.frame_count ∧
    (s.last_frame.isSome → (refresh cap ew eh s).last_frame.isSome) := by
  rcases cap with _ | f
  · exact ⟨rfl, rfl, fun h => h⟩
  · simp only [refresh]
    split <;> exact ⟨rfl, rfl, fun _ => rfl⟩

theorem pumpRun_spec (ival : ℕ) (hI : 0 < ival) (ew eh : ℕ)
    (iters : List (ℕ × Option Frame)) (s : PumpState)
    (hsome : s.last_frame.isSome) :
    (pumpRun ival hI ew eh iters s).2.map Emission.idx =
      List.range' (s.frame_count + 1) (pumpRun ival hI ew eh iters s).2.length 1 ∧
    (pumpRun ival hI ew eh iters s).2.map Emission.due =
      List.range' s.next_due (pumpRun ival hI ew eh iters s).2.length ival ∧
    (pumpRun ival hI ew eh iters s).1.frame_count =
      s.frame_count + (pumpRun ival hI ew eh iters s).2.length ∧
    (pumpRun ival hI ew eh iters s).1.next_due =
      s.next_due + (pumpRun ival hI ew eh iters s).2.length * ival := by
  induction iters generalizing s with
  | nil => exact ⟨rfl, rfl, rfl, by simp [pumpRun]⟩
  | cons it rest IHrest =>
    obtain ⟨now, cap⟩ := it
    obtain ⟨buf, hbuf⟩ := Option.isSome_iff_exists.mp hsome
    obtain ⟨c1, c2, c3, c4, c5, c6⟩ := catchUp_spec now ival hI s buf hbuf
    have hpres := refresh_preserves cap ew eh (catchUp now ival hI s).1
    have hsome2 : (refresh cap ew eh (catchUp now ival hI s).1).last_frame.isSome :=
      hpres.2.2 (by rw [c1]; rfl)
    obtain ⟨i1, i2, i3, i4⟩ := IHrest _ hsome2
    have hfc : (refresh cap ew eh (catchUp now ival hI s).1).frame_count =
        s.frame_count + (catchUp now ival hI s).2.length := by
      rw [hpres.2.1, c2]
    have hnd : (refresh cap ew eh (catchUp now ival hI s).1).next_due =
        s.next_due + (catchUp now ival hI s).2.length * ival := by
      rw [hpres.1, c3]
    simp only [pumpRun]
    refine ⟨?_, ?_, ?_, ?_⟩
    · rw [List.map_append, List.length_append, c5, i1, hfc]
      have hst : s.frame_count + (catchUp now ival hI s).2.length + 1 =
          (s.frame_count + 1) + 1 * (catchUp now ival hI s).2.length := by ring
      rw [hst, List.range'_append]
      congr 1
      omega
    · rw [List.map_append, List.length_append, c6, i2, hnd]
      have hst : s.next_due + (catchUp now ival hI s).2.length * ival =
          s.next_due + ival * (catchUp now ival hI s).2.length := by ring
      rw [hst, List.range'_append]
      congr 1
      omega
    · rw [List.length_append, i3, hfc]
      omega
    · rw [List.length_append, i4, hnd]
      ring

theorem chain_succ_range' (s n : ℕ) :
    List.Chain' (fun a b : ℕ => b = a + 1) (List.range' s n 1) := by
  induction n generalizing s with
  | zero => simp
  | succ n IH =>
    rw [List.range'_succ]
    cases n with
    | zero => simp
    | succ m =>
      rw [List.range'_succ]
      refine List.Chain'.cons rfl ?_
      rw [← List.range'_succ]
      exact IH (s + 1)

/-- C3: across any run of the pump loop with a seeded `last_frame`, the
emitted frame indices are exactly consecutive (strictly increasing by 1,
none skipped or repeated), the emitted schedule slots are exactly the
consecutive `next_due` values (one write per slot), and writes occur in
strictly increasing — in particular non-decreasing — `next_due` order,
regardless of the clock values and capture outcomes of the
iterations. -/
theorem pump_schedule_monotone (ival : ℕ) (hI : 0 < ival) (ew eh : ℕ)
    (iters : List (ℕ × Option Frame)) (s : PumpState) (buf : List ℕ)
    (hs : s.last_frame = some buf) :
    (pumpRun ival hI ew eh iters s).2.map Emission.idx =
      List.range' (s.frame_count + 1) (pumpRun ival hI ew eh iters s).2.length 1 ∧
    (pumpRun ival hI ew eh iters s).2.map Emission.due =
      List.range' s.next_due (pumpRun ival hI ew eh iters s).2.length ival ∧
    List.Chain' (fun a b : Emission => b.idx = a.idx + 1)
      (pumpRun ival hI ew eh iters s).2 ∧
    List.Pairwise (fun a b : Emission => a.due < b.due)
      (pumpRun ival hI ew eh iters s).2 := by
  have h := pumpRun_spec ival hI ew eh iters s (by rw [hs]; rfl)
  refine ⟨h.1, h.2.1, ?_, ?_⟩
  · have hc : List.Chain' (fun a b : ℕ => b = a + 1)
        ((pumpRun ival hI ew eh iters s).2.map Emission.idx) := by
      rw [h.1]
      exact chain_succ_range' _ _
    exact (List.chain'_map Emission.idx).mp hc
  · have hp : List.Pairwise (· < ·)
        ((pumpRun ival hI ew eh iters s).2.map Emission.due) := by
      rw [h.2.1]
      exact List.pairwise_lt_range' _ _ _ hI
    exact (List.pairwise_map).mp hp

/-- Witness for `pump_schedule_monotone` on a seeded one-iteration run. -/
theorem pump_schedule_monotone_witness :
    (⟨10, 0, some [1, 2, 3]⟩ : PumpState).last_frame = some [1, 2, 3] ∧
    ((pumpRun 1 Nat.one_pos 2 2 [(12, none)] ⟨10, 0, some [1, 2, 3]⟩).2.map
        Emission.idx =
      List.range' (0 + 1)
        (pumpRun 1 Nat.one_pos 2 2 [(12, none)] ⟨10, 0, some [1, 2, 3]⟩).2.length 1 ∧
     (pumpRun 1 Nat.one_pos 2 2 [(12, none)] ⟨10, 0, some [1, 2, 3]⟩).2.map
        Emission.due =
      List.range' 10
        (pumpRun 1 Nat.one_pos 2 2 [(12, none)] ⟨10, 0, some [1, 2, 3]⟩).2.length 1 ∧
     List.Chain' (fun a b : Emission => b.idx = a.idx + 1)
       (pumpRun 1 Nat.one_pos 2 2 [(12, none)] ⟨10, 0, some [1, 2, 3]⟩).2 ∧
     List.Pairwise (fun a b : Emission => a.due < b.due)
       (pumpRun 1 Nat.one_pos 2 2 [(12, none)] ⟨10, 0, some [1, 2, 3]⟩).2) :=
  ⟨rfl, pump_schedule_monotone 1 Nat.one_pos 2 2 [(12, none)]
    ⟨10, 0, some [1, 2, 3]⟩ [1, 2, 3] rfl⟩

/-- C1 (violation): when the first capture returns a 101×151 buffer and
the extra capture taken by the seed-normalization step misses, the
resolved target geometry is 102×152 but the seed frame is kept
unnormalized at `101 * 151 * 4` bytes — not `102 * 152 * 4` — and the
pump loop writes exactly that wrong-sized buffer to the encoder pipe. -/
theorem seed_frame_size_mismatch :
    resolveAndSeed (some ⟨List.replicate (101 * 151 * 4) 0, 101, 151⟩) none 0 0 =
      (102, 152, some (List.replicate (101 * 151 * 4) 0)) ∧
    (List.replicate (101 * 151 * 4) (0 : ℕ)).length ≠ 102 * 152 * 4 ∧
    (pumpRun 1 Nat.one_pos 102 152 [(0, none)]
        ⟨0, 0, some (List.replicate (101 * 151 * 4) 0)⟩).2.map
      (fun e => e.buf.length) = [101 * 151 * 4] := by
  refine ⟨rfl, ?_, ?_⟩
  · rw [List.length_replicate]
    norm_num
  rw [pumpRun]
  rw [catchUp.eq_def]
  norm_num
  rw [catchUp.eq_def]
  norm_num [pumpRun]

end MSC
